import Mathlib

/-!
Shallow embedding of the HBnB part2 core (holbertonschool-hbnb):
entity models (`app/models/user.py`, `place.py`, `review.py`, `amenity.py`)
and the facade service layer (`app/services/facade.py`).

Python values flowing through the facade are dynamically typed; we embed
them as the inductive `PVal`.  Repositories are insertion-ordered
association lists from id to entity; Python attribute mutation on an
object stored in a repository is modelled by updating the repository
entry in place (the repository holds a reference to the object, so a
mutation is immediately visible through the repository).

`app/models/base_model.py` and `app/persistence/repository.py` are not in
the source tree; the definitions that stand in for them are modelled from
the spec and marked as such in their doc comments.
-/

namespace HBnB

/-- A Python value as it can appear in a request payload or an entity
attribute: `none` is Python `None`; `bool` is kept separate from `int`
even though Python `bool` is an `int` subclass (the `isinstance` helpers
below account for that). Floats are embedded as rationals: no arithmetic
is performed on them in the source, only exact comparisons. -/
inductive PVal where
  | none
  | str (s : String)
  | int (i : Int)
  | float (q : ℚ)
  | bool (b : Bool)
  | list (l : List PVal)
deriving Repr

mutual

/-- Decidable equality for `PVal` (the nested `list` constructor rules
out automatic derivation). -/
def PVal.decEq : (a b : PVal) → Decidable (a = b)
  | .none, .none => isTrue rfl
  | .str a, .str b =>
      if h : a = b then isTrue (by rw [h]) else isFalse (fun hh => h (by cases hh; rfl))
  | .int a, .int b =>
      if h : a = b then isTrue (by rw [h]) else isFalse (fun hh => h (by cases hh; rfl))
  | .float a, .float b =>
      if h : a = b then isTrue (by rw [h]) else isFalse (fun hh => h (by cases hh; rfl))
  | .bool a, .bool b =>
      if h : a = b then isTrue (by rw [h]) else isFalse (fun hh => h (by cases hh; rfl))
  | .list a, .list b =>
      match PVal.decEqList a b with
      | isTrue h => isTrue (by rw [h])
      | isFalse h => isFalse (fun hh => h (by cases hh; rfl))
  | .none, .str _ => isFalse (fun h => PVal.noConfusion h)
  | .none, .int _ => isFalse (fun h => PVal.noConfusion h)
  | .none, .float _ => isFalse (fun h => PVal.noConfusion h)
  | .none, .bool _ => isFalse (fun h => PVal.noConfusion h)
  | .none, .list _ => isFalse (fun h => PVal.noConfusion h)
  | .str _, .none => isFalse (fun h => PVal.noConfusion h)
  | .str _, .int _ => isFalse (fun h => PVal.noConfusion h)
  | .str _, .float _ => isFalse (fun h => PVal.noConfusion h)
  | .str _, .bool _ => isFalse (fun h => PVal.noConfusion h)
  | .str _, .list _ => isFalse (fun h => PVal.noConfusion h)
  | .int _, .none => isFalse (fun h => PVal.noConfusion h)
  | .int _, .str _ => isFalse (fun h => PVal.noConfusion h)
  | .int _, .float _ => isFalse (fun h => PVal.noConfusion h)
  | .int _, .bool _ => isFalse (fun h => PVal.noConfusion h)
  | .int _, .list _ => isFalse (fun h => PVal.noConfusion h)
  | .float _, .none => isFalse (fun h => PVal.noConfusion h)
  | .float _, .str _ => isFalse (fun h => PVal.noConfusion h)
  | .float _, .int _ => isFalse (fun h => PVal.noConfusion h)
  | .float _, .bool _ => isFalse (fun h => PVal.noConfusion h)
  | .float _, .list _ => isFalse (fun h => PVal.noConfusion h)
  | .bool _, .none => isFalse (fun h => PVal.noConfusion h)
  | .bool _, .str _ => isFalse (fun h => PVal.noConfusion h)
  | .bool _, .int _ => isFalse (fun h => PVal.noConfusion h)
  | .bool _, .float _ => isFalse (fun h => PVal.noConfusion h)
  | .bool _, .list _ => isFalse (fun h => PVal.noConfusion h)
  | .list _, .none => isFalse (fun h => PVal.noConfusion h)
  | .list _, .str _ => isFalse (fun h => PVal.noConfusion h)
  | .list _, .int _ => isFalse (fun h => PVal.noConfusion h)
  | .list _, .float _ => isFalse (fun h => PVal.noConfusion h)
  | .list _, .bool _ => isFalse (fun h => PVal.noConfusion h)

/-- Decidable equality for lists of `PVal`. -/
def PVal.decEqList : (a b : List PVal) → Decidable (a = b)
  | [], [] => isTrue rfl
  | [], _ :: _ => isFalse (fun h => List.noConfusion h)
  | _ :: _, [] => isFalse (fun h => List.noConfusion h)
  | x :: xs, y :: ys =>
      match PVal.decEq x y, PVal.decEqList xs ys with
      | isTrue h1, isTrue h2 => isTrue (by rw [h1, h2])
      | isFalse h1, _ => isFalse (fun hh => h1 (by cases hh; rfl))
      | _, isFalse h2 => isFalse (fun hh => h2 (by cases hh; rfl))

end

instance : DecidableEq PVal := PVal.decEq

/-- Python truthiness (`bool(v)`). -/
def PVal.truthy : PVal → Bool
  | .none => false
  | .str s => s ≠ ""
  | .int i => i ≠ 0
  | .float q => q ≠ 0
  | .bool b => b
  | .list l => !l.isEmpty

/-- `isinstance(v, (int, float))`; Python `bool` is a subclass of `int`. -/
def PVal.isNum : PVal → Bool
  | .int _ => true
  | .float _ => true
  | .bool _ => true
  | _ => false

/-- `isinstance(v, int)`; Python `bool` is a subclass of `int`. -/
def PVal.isInt : PVal → Bool
  | .int _ => true
  | .bool _ => true
  | _ => false

/-- Numeric value of a `PVal` for comparisons (meaningful on the numeric
constructors only). -/
def PVal.toRat : PVal → ℚ
  | .int i => (i : ℚ)
  | .float q => q
  | .bool b => if b then 1 else 0
  | _ => 0

/-- Python `str.strip()`: drop whitespace from both ends.  Implemented
over the character list (rather than `String.trim`, whose core
implementation does not reduce in the kernel) so concrete instances
can be settled by `decide`. -/
def strStrip (s : String) : String :=
  String.mk (((s.data.dropWhile Char.isWhitespace).reverse.dropWhile
    Char.isWhitespace).reverse)

/-- Python `c in s` for a single character. -/
def strContains (s : String) (c : Char) : Bool :=
  s.data.contains c

/-- Python `s.split('@')[-1]`: the part of `s` after its last `@`
(the whole string when `s` has no `@`). -/
def afterLastAt (s : String) : String :=
  String.mk ((s.data.reverse.takeWhile (fun c => c != '@')).reverse)

/-- `v.strip()`: succeeds on strings, `AttributeError` otherwise. -/
def pyStrip : PVal → Except String PVal
  | .str s => .ok (.str (strStrip s))
  | _ => .error "AttributeError: strip"

/-- `len(v)`: defined on strings and lists, `TypeError` otherwise. -/
def pyLen : PVal → Except String Int
  | .str s => .ok s.length
  | .list l => .ok l.length
  | _ => .error "TypeError: len"

/-- Python dict with string keys, in insertion order (duplicate keys do
not arise from Python dicts). -/
abbrev PDict := List (String × PVal)

/-- `d.get(k)` / `k in d` combined: the value under `k`, if present. -/
def dictGet (d : PDict) (k : String) : Option PVal :=
  (d.find? (fun p => p.1 == k)).map Prod.snd

/-- `User` (`app/models/user.py`).  `id`, `created_at`, `updated_at` come
from `BaseModel`, which is not in the source tree.  Modelled from the
spec: `id` unique and generated at creation, `created_at`/`updated_at`
set at creation, `updated_at` refreshed by `save()`; timestamps are
clock ticks (`Int` inside `PVal`), ids are strings. `created_at` is kept
as a plain field because no code path reassigns it; `updated_at` is a
`PVal` because `update_user` can reach it via `setattr`. -/
structure User where
  id : String
  created_at : Int
  updated_at : PVal
  first_name : PVal
  last_name : PVal
  email : PVal
  is_admin : PVal
  place_list : PVal
  reviews : PVal
deriving Repr, DecidableEq

/-- `User.validate` (`app/models/user.py` lines 27-43), transcribed
check by check with the source's messages and evaluation order. -/
def User.validate (u : User) : Except String Unit := do
  if !u.first_name.truthy then throw "First name is required"
  let fs ← pyStrip u.first_name
  if !fs.truthy then throw "First name is required"
  let fl ← pyLen u.first_name
  if fl > 50 then throw "First name must not exceed 50 characters"
  if !u.last_name.truthy then throw "Last name is required"
  let ls ← pyStrip u.last_name
  if !ls.truthy then throw "Last name is required"
  let ll ← pyLen u.last_name
  if ll > 50 then throw "Last name must not exceed 50 characters"
  if !u.email.truthy then throw "Email is required"
  let es ← pyStrip u.email
  if !es.truthy then throw "Email is required"
  match u.email with
  | .str e =>
      if !(strContains e '@') then throw "Invalid email format"
      if !(strContains (afterLastAt e) '.') then
        throw "Invalid email format"
  | _ => throw "TypeError: in requires string"

/-- `User.__init__`: assign the fields, then `self.validate()`; a
validation failure propagates and the object is not returned. -/
def User.new (id : String) (now : Int) (first_name last_name email is_admin : PVal) :
    Except String User :=
  let u : User :=
    { id := id, created_at := now, updated_at := .int now
      first_name := first_name, last_name := last_name, email := email
      is_admin := is_admin, place_list := .list [], reviews := .list [] }
  match u.validate with
  | .error e => .error e
  | .ok _ => .ok u

/-- `Amenity` (`app/models/amenity.py`). Base fields as in `User`. -/
structure Amenity where
  id : String
  created_at : Int
  updated_at : PVal
  name : PVal
deriving Repr, DecidableEq

/-- `Amenity.validate` (`app/models/amenity.py` lines 19-24). -/
def Amenity.validate (a : Amenity) : Except String Unit := do
  if !a.name.truthy then throw "Amenity name is required"
  let ns ← pyStrip a.name
  if !ns.truthy then throw "Amenity name is required"
  let nl ← pyLen a.name
  if nl > 50 then throw "Amenity name must not exceed 50 characters"

/-- `Amenity.__init__`: assign, then validate. -/
def Amenity.new (id : String) (now : Int) (name : PVal) : Except String Amenity :=
  let a : Amenity := { id := id, created_at := now, updated_at := .int now, name := name }
  match a.validate with
  | .error e => .error e
  | .ok _ => .ok a

/-- `Review` (`app/models/review.py`). Base fields as in `User`. -/
structure Review where
  id : String
  created_at : Int
  updated_at : PVal
  text : PVal
  rating : PVal
  place_id : PVal
  user_id : PVal
deriving Repr, DecidableEq

/-- `Review.validate` (`app/models/review.py` lines 25-39). -/
def Review.validate (r : Review) : Except String Unit := do
  if !r.text.truthy then throw "Review text is required"
  let ts ← pyStrip r.text
  if !ts.truthy then throw "Review text is required"
  if r.rating = .none then throw "Rating is required"
  if !r.rating.isInt || !(1 ≤ r.rating.toRat ∧ r.rating.toRat ≤ 5) then
    throw "Rating must be an integer between 1 and 5"
  if !r.place_id.truthy then throw "Place ID is required"
  if !r.user_id.truthy then throw "User ID is required"

/-- `Review.__init__`: assign, then validate. -/
def Review.new (id : String) (now : Int) (text rating place_id user_id : PVal) :
    Except String Review :=
  let r : Review :=
    { id := id, created_at := now, updated_at := .int now
      text := text, rating := rating, place_id := place_id, user_id := user_id }
  match r.validate with
  | .error e => .error e
  | .ok _ => .ok r

/-- `Place` (`app/models/place.py`). `owner` is a reference to a `User`
object (or `None`); `amenities` and `reviews` are Python lists of entity
objects. Base fields as in `User`. -/
structure Place where
  id : String
  created_at : Int
  updated_at : PVal
  title : PVal
  description : PVal
  price : PVal
  latitude : PVal
  longitude : PVal
  owner : Option User
  amenities : List Amenity
  reviews : List Review
deriving Repr, DecidableEq

/-- `Place.validate` (`app/models/place.py` lines 33-56). -/
def Place.validate (p : Place) : Except String Unit := do
  if !p.title.truthy then throw "Title is required"
  let ts ← pyStrip p.title
  if !ts.truthy then throw "Title is required"
  let tl ← pyLen p.title
  if tl > 100 then throw "Title must not exceed 100 characters"
  if p.price = .none then throw "Price is required"
  if !p.price.isNum || !(0 < p.price.toRat) then
    throw "Price must be a positive value"
  if p.latitude = .none then throw "Latitude is required"
  if !p.latitude.isNum || !(-90 ≤ p.latitude.toRat ∧ p.latitude.toRat ≤ 90) then
    throw "Latitude must be between -90.0 and 90.0"
  if p.longitude = .none then throw "Longitude is required"
  if !p.longitude.isNum || !(-180 ≤ p.longitude.toRat ∧ p.longitude.toRat ≤ 180) then
    throw "Longitude must be between -180.0 and 180.0"
  if p.owner.isNone then throw "Owner is required"

/-- `Place.__init__`: assign the fields (empty lists when `amenities` or
`reviews` is not given), then validate. -/
def Place.new (id : String) (now : Int) (title description price latitude longitude : PVal)
    (owner : Option User) (amenities : List Amenity) (reviews : List Review) :
    Except String Place :=
  let p : Place :=
    { id := id, created_at := now, updated_at := .int now
      title := title, description := description, price := price
      latitude := latitude, longitude := longitude
      owner := owner, amenities := amenities, reviews := reviews }
  match p.validate with
  | .error e => .error e
  | .ok _ => .ok p

/-- `Place.add_review` (`app/models/place.py` lines 58-61): append the
review unless it is already in the list.  Python `in` compares by
`__eq__`, which for these classes is object identity; ids are unique, so
structural equality coincides with identity on well-formed states. -/
def Place.add_review (p : Place) (r : Review) : Place :=
  if r ∈ p.reviews then p else { p with reviews := p.reviews ++ [r] }

/-- Python `==` between attribute values: numeric values compare by
value across `int`/`float`/`bool`, everything else structurally. -/
def pyEq (a b : PVal) : Bool :=
  if a.isNum && b.isNum then a.toRat == b.toRat else a == b

/-- Modelled from the spec (§4.1, `app/persistence/repository.py` is not
in the source tree): an `InMemoryRepository` is an insertion-ordered
association list from id to entity. -/
abbrev Repo (α : Type) := List (String × α)

/-- Modelled from the spec: `get(id)` returns the entity or absence. -/
def repoGet {α : Type} (repo : Repo α) (id : String) : Option α :=
  (repo.find? (fun p => p.1 == id)).map Prod.snd

/-- Modelled from the spec: `add(entity)` stores by generated id. -/
def repoAdd {α : Type} (repo : Repo α) (id : String) (e : α) : Repo α :=
  repo ++ [(id, e)]

/-- Modelled from the spec: `delete(id)` removes the entry if present. -/
def repoDelete {α : Type} (repo : Repo α) (id : String) : Repo α :=
  repo.filter (fun p => p.1 != id)

/-- Modelled from the spec: `get_all()` returns all entities in
insertion order. -/
def repoAll {α : Type} (repo : Repo α) : List α :=
  repo.map Prod.snd

/-- In-place mutation of the object stored under `id`: Python attribute
assignment on an object held by the repository is visible through the
repository, which we model by replacing the entry. -/
def repoSet {α : Type} (repo : Repo α) (id : String) (e : α) : Repo α :=
  repo.map (fun p => if p.1 == id then (p.1, e) else p)

/-- `repo.get(key)` where the key is a raw payload value: ids are
strings, so a non-string key matches nothing. -/
def pvGet {α : Type} (repo : Repo α) : PVal → Option α
  | .str s => repoGet repo s
  | _ => Option.none

/-- Replace the entry the payload key refers to (no-op on a non-string
key, which can never have been found by `pvGet`). -/
def pvSet {α : Type} (repo : Repo α) (k : PVal) (e : α) : Repo α :=
  match k with
  | .str s => repoSet repo s e
  | _ => repo

/-- Iterating a Python value with `for`: lists yield their elements,
strings yield their characters, other values raise `TypeError`. -/
def pyIter : PVal → Except String (List PVal)
  | .list l => .ok l
  | .str s => .ok (s.toList.map (fun c => PVal.str (String.singleton c)))
  | _ => .error "TypeError: not iterable"

/-- `HBnBFacade.__init__` state (`app/services/facade.py`): four
repositories.  `counter` and `time` are modelled from the spec: the
uuid generator behind `BaseModel.id` becomes a counter, and the
`datetime.now()` clock becomes a tick counter that advances on every
facade call. -/
structure HBnBFacade where
  user_repo : Repo User
  place_repo : Repo Place
  review_repo : Repo Review
  amenity_repo : Repo Amenity
  counter : Nat
  time : Int
deriving Repr, DecidableEq

/-- A fresh facade with empty repositories. -/
def HBnBFacade.init : HBnBFacade :=
  { user_repo := [], place_repo := [], review_repo := [], amenity_repo := []
    counter := 0, time := 0 }

/-- Modelled from the spec: the generated id of the next entity
(uuid uniqueness becomes counter freshness). -/
def freshId (f : HBnBFacade) : String :=
  toString f.counter

/-- `HBnBFacade.create_user`: `User(**user_data)` then `add`.  Keyword
expansion requires `first_name`, `last_name`, `email`, allows
`is_admin` (default `False`), and rejects any other key. -/
def HBnBFacade.create_user (f : HBnBFacade) (user_data : PDict) :
    HBnBFacade × Except String User :=
  let now := f.time + 1
  let f0 := { f with time := now }
  if !(user_data.all (fun p =>
      ["first_name", "last_name", "email", "is_admin"].contains p.1)) then
    (f0, .error "TypeError: unexpected keyword argument")
  else
    match dictGet user_data "first_name", dictGet user_data "last_name",
        dictGet user_data "email" with
    | some fn, some ln, some em =>
        match User.new (freshId f0) now fn ln em
            ((dictGet user_data "is_admin").getD (.bool false)) with
        | .error e => (f0, .error e)
        | .ok u =>
            ({ f0 with user_repo := repoAdd f0.user_repo u.id u,
                       counter := f0.counter + 1 }, .ok u)
    | _, _, _ => (f0, .error "TypeError: missing required argument")

/-- `HBnBFacade.get_user`. -/
def HBnBFacade.get_user (f : HBnBFacade) (user_id : String) : Option User :=
  repoGet f.user_repo user_id

/-- `HBnBFacade.get_user_by_email`:
`user_repo.get_by_attribute('email', email)`, modelled from the spec as
the first match in insertion order. -/
def HBnBFacade.get_user_by_email (f : HBnBFacade) (email : PVal) : Option User :=
  (repoAll f.user_repo).find? (fun u => pyEq u.email email)

/-- `HBnBFacade.get_all_users`. -/
def HBnBFacade.get_all_users (f : HBnBFacade) : List User :=
  repoAll f.user_repo

/-- `hasattr(user, k)` for the data attributes set in `User.__init__`
and `BaseModel.__init__`. -/
def userHasattr (k : String) : Bool :=
  ["id", "created_at", "updated_at", "first_name", "last_name", "email",
   "is_admin", "place_list", "reviews"].contains k

/-- `setattr(user, k, v)` for the keys `update_user` can reach (its
filter excludes `id` and `created_at` before calling `setattr`). -/
def setattrUser (u : User) (k : String) (v : PVal) : User :=
  if k == "first_name" then { u with first_name := v }
  else if k == "last_name" then { u with last_name := v }
  else if k == "email" then { u with email := v }
  else if k == "is_admin" then { u with is_admin := v }
  else if k == "place_list" then { u with place_list := v }
  else if k == "reviews" then { u with reviews := v }
  else if k == "updated_at" then { u with updated_at := v }
  else u

/-- The field-assignment loop of `update_user`: assign every key that
is an existing attribute other than `id`/`created_at`. -/
def applyUserUpdate (u : User) (update_data : PDict) : User :=
  update_data.foldl
    (fun acc kv =>
      if userHasattr kv.1 && !(["id", "created_at"].contains kv.1) then
        setattrUser acc kv.1 kv.2
      else acc) u

/-- `HBnBFacade.update_user` (facade.py lines 71-92): absence returns
`None`; otherwise every key that is an existing attribute other than
`id`/`created_at` is assigned, then `save()` refreshes `updated_at`.
No re-validation happens. -/
def HBnBFacade.update_user (f : HBnBFacade) (user_id : String) (update_data : PDict) :
    HBnBFacade × Except String (Option User) :=
  let now := f.time + 1
  let f0 := { f with time := now }
  match repoGet f0.user_repo user_id with
  | Option.none => (f0, .ok Option.none)
  | some u =>
      let u2 := { applyUserUpdate u update_data with updated_at := .int now }
      ({ f0 with user_repo := repoSet f0.user_repo user_id u2 }, .ok (some u2))

/-- `HBnBFacade.create_place` (facade.py lines 96-134): resolve
`owner_id` (failure → `Invalid owner_id`); collect the amenities whose
ids are found, silently skipping absent ones; construct the `Place`
(validation may fail); store it. -/
def HBnBFacade.create_place (f : HBnBFacade) (place_data : PDict) :
    HBnBFacade × Except String Place :=
  let now := f.time + 1
  let f0 := { f with time := now }
  let owner_id := (dictGet place_data "owner_id").getD .none
  match pvGet f0.user_repo owner_id with
  | Option.none => (f0, .error "Invalid owner_id")
  | some owner =>
      let amenities? : Except String (List Amenity) :=
        match dictGet place_data "amenities" with
        | Option.none => .ok []
        | some v =>
            (pyIter v).map (fun ids => ids.filterMap (fun w => pvGet f0.amenity_repo w))
      match amenities? with
      | .error e => (f0, .error e)
      | .ok amenities =>
          match dictGet place_data "title", dictGet place_data "price",
              dictGet place_data "latitude", dictGet place_data "longitude" with
          | some title, some price, some lat, some lon =>
              let desc := (dictGet place_data "description").getD (.str "")
              match Place.new (freshId f0) now title desc price lat lon
                  (some owner) amenities [] with
              | .error e => (f0, .error e)
              | .ok p =>
                  ({ f0 with place_repo := repoAdd f0.place_repo p.id p,
                             counter := f0.counter + 1 }, .ok p)
          | _, _, _, _ => (f0, .error "KeyError: missing place field")

/-- `HBnBFacade.get_place`. -/
def HBnBFacade.get_place (f : HBnBFacade) (place_id : String) : Option Place :=
  repoGet f.place_repo place_id

/-- `HBnBFacade.get_all_places`. -/
def HBnBFacade.get_all_places (f : HBnBFacade) : List Place :=
  repoAll f.place_repo

/-- `setattr(place, k, v)` for the allow-listed keys of `update_place`. -/
def setattrPlace (p : Place) (k : String) (v : PVal) : Place :=
  if k == "title" then { p with title := v }
  else if k == "description" then { p with description := v }
  else if k == "price" then { p with price := v }
  else if k == "latitude" then { p with latitude := v }
  else if k == "longitude" then { p with longitude := v }
  else p

/-- The field-assignment loop of `update_place`: assign the
allow-listed keys. -/
def applyPlaceUpdate (p : Place) (update_data : PDict) : Place :=
  update_data.foldl
    (fun acc kv =>
      if ["title", "description", "price", "latitude", "longitude"].contains kv.1 then
        setattrPlace acc kv.1 kv.2
      else acc) p

/-- `HBnBFacade.update_place` (facade.py lines 157-182): absence raises
`ValueError("Place not found")`; otherwise the allow-listed fields are
assigned and `save()` refreshes `updated_at`.  No re-validation. -/
def HBnBFacade.update_place (f : HBnBFacade) (place_id : String) (update_data : PDict) :
    HBnBFacade × Except String Place :=
  let now := f.time + 1
  let f0 := { f with time := now }
  match repoGet f0.place_repo place_id with
  | Option.none => (f0, .error "Place not found")
  | some p =>
      let p2 := { applyPlaceUpdate p update_data with updated_at := .int now }
      ({ f0 with place_repo := repoSet f0.place_repo place_id p2 }, .ok p2)

/-- `HBnBFacade.create_amenity`: `Amenity(name=amenity_data['name'])`
then `add`. -/
def HBnBFacade.create_amenity (f : HBnBFacade) (amenity_data : PDict) :
    HBnBFacade × Except String Amenity :=
  let now := f.time + 1
  let f0 := { f with time := now }
  match dictGet amenity_data "name" with
  | Option.none => (f0, .error "KeyError: name")
  | some v =>
      match Amenity.new (freshId f0) now v with
      | .error e => (f0, .error e)
      | .ok a =>
          ({ f0 with amenity_repo := repoAdd f0.amenity_repo a.id a,
                     counter := f0.counter + 1 }, .ok a)

/-- `HBnBFacade.get_amenity`. -/
def HBnBFacade.get_amenity (f : HBnBFacade) (amenity_id : String) : Option Amenity :=
  repoGet f.amenity_repo amenity_id

/-- `HBnBFacade.get_all_amenities`. -/
def HBnBFacade.get_all_amenities (f : HBnBFacade) : List Amenity :=
  repoAll f.amenity_repo

/-- `HBnBFacade.update_amenity` (facade.py lines 221-244): absence
returns `None`; with a `name` key, the name is assigned on the stored
object, `validate()` re-runs (a failure propagates with the mutation
already visible through the repository and `save()` not reached), and
on success `save()` refreshes `updated_at`.  Without a `name` key the
amenity is returned untouched. -/
def HBnBFacade.update_amenity (f : HBnBFacade) (amenity_id : String) (amenity_data : PDict) :
    HBnBFacade × Except String (Option Amenity) :=
  let now := f.time + 1
  let f0 := { f with time := now }
  match repoGet f0.amenity_repo amenity_id with
  | Option.none => (f0, .ok Option.none)
  | some a =>
      match dictGet amenity_data "name" with
      | Option.none => (f0, .ok (some a))
      | some v =>
          let a1 := { a with name := v }
          let f1 := { f0 with amenity_repo := repoSet f0.amenity_repo amenity_id a1 }
          match a1.validate with
          | .error e => (f1, .error e)
          | .ok _ =>
              let a2 := { a1 with updated_at := .int now }
              ({ f0 with amenity_repo := repoSet f0.amenity_repo amenity_id a2 },
               .ok (some a2))

/-- `HBnBFacade.create_review` (facade.py lines 248-281): look up
`place_id` and `user_id` (missing keys are `KeyError`s, absent entities
raise `Invalid place_id` / `Invalid user_id` in that order); construct
the `Review` (validation may fail); store it; then
`place.add_review(review)` mutates the stored place. -/
def HBnBFacade.create_review (f : HBnBFacade) (review_data : PDict) :
    HBnBFacade × Except String Review :=
  let now := f.time + 1
  let f0 := { f with time := now }
  match dictGet review_data "place_id" with
  | Option.none => (f0, .error "KeyError: place_id")
  | some pidV =>
      match dictGet review_data "user_id" with
      | Option.none => (f0, .error "KeyError: user_id")
      | some uidV =>
          match pvGet f0.place_repo pidV with
          | Option.none => (f0, .error "Invalid place_id")
          | some place =>
              match pvGet f0.user_repo uidV with
              | Option.none => (f0, .error "Invalid user_id")
              | some _ =>
                  match dictGet review_data "text", dictGet review_data "rating" with
                  | some textV, some ratingV =>
                      match Review.new (freshId f0) now textV ratingV pidV uidV with
                      | .error e => (f0, .error e)
                      | .ok r =>
                          let f1 := { f0 with
                                      review_repo := repoAdd f0.review_repo r.id r,
                                      counter := f0.counter + 1 }
                          ({ f1 with
                             place_repo := pvSet f1.place_repo pidV (place.add_review r) },
                           .ok r)
                  | _, _ => (f0, .error "KeyError: missing review field")

/-- `HBnBFacade.get_review`. -/
def HBnBFacade.get_review (f : HBnBFacade) (review_id : String) : Option Review :=
  repoGet f.review_repo review_id

/-- `HBnBFacade.get_all_reviews`. -/
def HBnBFacade.get_all_reviews (f : HBnBFacade) : List Review :=
  repoAll f.review_repo

/-- `HBnBFacade.get_reviews_by_place`: full scan of the review
repository filtered by `review.place_id == place_id`. -/
def HBnBFacade.get_reviews_by_place (f : HBnBFacade) (place_id : String) : List Review :=
  (repoAll f.review_repo).filter (fun r => pyEq r.place_id (.str place_id))

/-- `HBnBFacade.get_reviews_by_user`: full scan of the review
repository filtered by `review.user_id == user_id`. -/
def HBnBFacade.get_reviews_by_user (f : HBnBFacade) (user_id : String) : List Review :=
  (repoAll f.review_repo).filter (fun r => pyEq r.user_id (.str user_id))

/-- `setattr(review, k, v)` for the allow-listed keys of
`update_review`. -/
def setattrReview (r : Review) (k : String) (v : PVal) : Review :=
  if k == "text" then { r with text := v }
  else if k == "rating" then { r with rating := v }
  else r

/-- The field-assignment loop of `update_review`: assign the
allow-listed keys. -/
def applyReviewUpdate (r : Review) (update_data : PDict) : Review :=
  update_data.foldl
    (fun acc kv =>
      if ["text", "rating"].contains kv.1 then setattrReview acc kv.1 kv.2
      else acc) r

/-- `HBnBFacade.update_review` (facade.py lines 322-352): absence
returns `None`; otherwise the allow-listed fields are assigned on the
stored object, `validate()` re-runs (a failure propagates with the
mutation already visible and `save()` not reached), and on success
`save()` refreshes `updated_at`. -/
def HBnBFacade.update_review (f : HBnBFacade) (review_id : String) (update_data : PDict) :
    HBnBFacade × Except String (Option Review) :=
  let now := f.time + 1
  let f0 := { f with time := now }
  match repoGet f0.review_repo review_id with
  | Option.none => (f0, .ok Option.none)
  | some r =>
      let r1 := applyReviewUpdate r update_data
      let f1 := { f0 with review_repo := repoSet f0.review_repo review_id r1 }
      match r1.validate with
      | .error e => (f1, .error e)
      | .ok _ =>
          let r2 := { r1 with updated_at := .int now }
          ({ f0 with review_repo := repoSet f0.review_repo review_id r2 },
           .ok (some r2))

/-- `HBnBFacade.delete_review` (facade.py lines 354-368): `True` and
removal when present, `False` otherwise; nothing else is touched. -/
def HBnBFacade.delete_review (f : HBnBFacade) (review_id : String) :
    HBnBFacade × Bool :=
  let now := f.time + 1
  let f0 := { f with time := now }
  match repoGet f0.review_repo review_id with
  | Option.none => (f0, false)
  | some _ => ({ f0 with review_repo := repoDelete f0.review_repo review_id }, true)

/-- Decidable equality for `Except`, so concrete outcomes can be
checked by `decide`. -/
def exceptDecEq {ε α : Type} [DecidableEq ε] [DecidableEq α] :
    (a b : Except ε α) → Decidable (a = b)
  | .ok x, .ok y =>
      if h : x = y then isTrue (by rw [h]) else isFalse (fun hh => h (by cases hh; rfl))
  | .error x, .error y =>
      if h : x = y then isTrue (by rw [h]) else isFalse (fun hh => h (by cases hh; rfl))
  | .ok _, .error _ => isFalse (fun h => Except.noConfusion h)
  | .error _, .ok _ => isFalse (fun h => Except.noConfusion h)

instance {ε α : Type} [DecidableEq ε] [DecidableEq α] : DecidableEq (Except ε α) :=
  exceptDecEq

/-! Claim-side validation rule sets.  These follow the words of the
spec's validation claims (not the source), for comparison with the
source-derived `validate` functions. -/

/-- Spec words: non-missing, non-empty required text (a string whose
whitespace-stripped form is non-empty). -/
def specPresentText : PVal → Bool
  | .str s => strStrip s ≠ ""
  | _ => false

/-- Spec words: a required name, per the full per-entity rule set
(present, non-empty, at most `cap` characters). -/
def specValidName (cap : Int) : PVal → Bool
  | .str s => strStrip s ≠ "" && s.length ≤ cap
  | _ => false

/-- Spec words: a present, non-empty email containing `@` and a `.`
after it. -/
def specValidEmail : PVal → Bool
  | .str s => strStrip s ≠ "" && strContains s '@' && strContains (afterLastAt s) '.'
  | _ => false

/-- Spec words: rating an integer in [1, 5]. -/
def specValidRating (v : PVal) : Bool :=
  v.isInt && decide (1 ≤ v.toRat) && decide (v.toRat ≤ 5)

/-- Spec words: a numeric value within the closed interval. -/
def specNumIn (lo hi : ℚ) (v : PVal) : Bool :=
  v.isNum && decide (lo ≤ v.toRat) && decide (v.toRat ≤ hi)

/-- Spec words: a numeric value strictly greater than 0. -/
def specPosNum (v : PVal) : Bool :=
  v.isNum && decide (0 < v.toRat)

/-! Concrete scenario states used by witnesses and counterexamples:
a user (id "0"), an amenity (id "1"), a place (id "2") owned by the
user, and a review (id "3") of the place by the user. -/

/-- Payload for a valid user. -/
def userData0 : PDict :=
  [("first_name", .str "Ann"), ("last_name", .str "Lee"), ("email", .str "a@b.c")]

/-- State with one user, id "0". -/
def stateU : HBnBFacade := (HBnBFacade.init.create_user userData0).1

/-- State with the user and one amenity, id "1". -/
def stateUA : HBnBFacade := (stateU.create_amenity [("name", PVal.str "Wifi")]).1

/-- Payload for a valid place owned by user "0". -/
def placeData0 : PDict :=
  [("owner_id", .str "0"), ("title", .str "Home"), ("price", .float 5),
   ("latitude", .float 10), ("longitude", .float 20)]

/-- State with the user, the amenity, and one place, id "2". -/
def stateUAP : HBnBFacade := (stateUA.create_place placeData0).1

/-- Payload for a valid review of place "2" by user "0". -/
def reviewData0 : PDict :=
  [("place_id", .str "2"), ("user_id", .str "0"), ("text", .str "nice"),
   ("rating", .int 5)]

/-- State with the user, the amenity, the place, and one review, id "3". -/
def stateUAPR : HBnBFacade := (stateUAP.create_review reviewData0).1

/-- A 51-character name, over the 50-character cap. -/
def longName51 : String := String.mk (List.replicate 51 'a')

/-- The amenity stored under id "1" in `stateUA` (created at tick 2). -/
def amenity1 : Amenity :=
  { id := "1", created_at := 2, updated_at := .int 2, name := .str "Wifi" }

/-- The user stored under id "0" in `stateU` (created at tick 1). -/
def user0 : User :=
  { id := "0", created_at := 1, updated_at := .int 1, first_name := .str "Ann"
    last_name := .str "Lee", email := .str "a@b.c", is_admin := .bool false
    place_list := .list [], reviews := .list [] }

/-- The user stored under id "1" after a second `create_user` with the
same payload (created at tick 2). -/
def user0b : User :=
  { id := "1", created_at := 2, updated_at := .int 2, first_name := .str "Ann"
    last_name := .str "Lee", email := .str "a@b.c", is_admin := .bool false
    place_list := .list [], reviews := .list [] }

/-- The review stored under id "3" in `stateUAPR` (created at tick 4). -/
def review3 : Review :=
  { id := "3", created_at := 4, updated_at := .int 4, text := .str "nice"
    rating := .int 5, place_id := .str "2", user_id := .str "0" }

/-- The place created by `create_place` on `stateUA` when the payload
also lists amenity ids "ghost" (absent) and "1" (present). -/
def place2g : Place :=
  { id := "2", created_at := 3, updated_at := .int 3, title := .str "Home"
    description := .str "", price := .float 5, latitude := .float 10
    longitude := .float 20, owner := some user0, amenities := [amenity1]
    reviews := [] }

/-- The place stored under id "2" in `stateUAP` (created at tick 3,
no reviews yet). -/
def place2 : Place :=
  { id := "2", created_at := 3, updated_at := .int 3, title := .str "Home"
    description := .str "", price := .float 5, latitude := .float 10
    longitude := .float 20, owner := some user0, amenities := []
    reviews := [] }

/-- The place stored under id "2" in `stateUAPR` (created at tick 3,
with review "3" appended). -/
def place2r : Place :=
  { id := "2", created_at := 3, updated_at := .int 3, title := .str "Home"
    description := .str "", price := .float 5, latitude := .float 10
    longitude := .float 20, owner := some user0, amenities := []
    reviews := [review3] }

/-! ## Helper lemmas -/

/-- Looking up a key after replacing its entry yields the new entity. -/
theorem repoGet_repoSet {α : Type} (repo : Repo α) (id : String) (e : α)
    (h : (repoGet repo id).isSome) : repoGet (repoSet repo id e) id = some e := by
  induction repo with
  | nil => simp [repoGet] at h
  | cons hd tl ih =>
      by_cases hk : hd.1 == id
      · simp [repoGet, repoSet, List.find?, hk]
      · simp only [repoGet, repoSet, List.map_cons, List.find?] at h ⊢
        simp only [hk, if_neg] at h ⊢
        simp only [Bool.false_eq_true, reduceIte, hk]
        exact ih (by simpa [repoGet] using h)

/-- Looking up a key after deleting it yields absence. -/
theorem repoGet_repoDelete {α : Type} (repo : Repo α) (id : String) :
    repoGet (repoDelete repo id) id = Option.none := by
  induction repo with
  | nil => rfl
  | cons hd tl ih =>
      simp only [repoDelete, List.filter_cons] at ih ⊢
      by_cases hk : hd.1 == id
      · simp [bne, hk]
        exact ih
      · simp only [bne, hk, Bool.not_false, if_true]
        simpa [repoGet, List.find?, hk] using ih

/-- `get_all` after `add` is the old list with the new entity appended. -/
theorem repoAll_repoAdd {α : Type} (repo : Repo α) (id : String) (e : α) :
    repoAll (repoAdd repo id e) = repoAll repo ++ [e] := by
  simp [repoAll, repoAdd]

/-- Python `==` is reflexive on attribute values. -/
theorem pyEq_refl (v : PVal) : pyEq v v = true := by
  unfold pyEq
  split <;> simp

/-- `setattr` on a place never touches id, creation time, owner,
amenity list or review list. -/
theorem setattrPlace_frame (p : Place) (k : String) (v : PVal) :
    ((setattrPlace p k v).id, (setattrPlace p k v).created_at,
     (setattrPlace p k v).owner, (setattrPlace p k v).amenities,
     (setattrPlace p k v).reviews)
      = (p.id, p.created_at, p.owner, p.amenities, p.reviews) := by
  unfold setattrPlace
  split_ifs <;> rfl

/-- The `update_place` loop never touches id, creation time, owner,
amenity list or review list. -/
theorem applyPlaceUpdate_frame : ∀ (d : PDict) (p : Place),
    ((applyPlaceUpdate p d).id, (applyPlaceUpdate p d).created_at,
     (applyPlaceUpdate p d).owner, (applyPlaceUpdate p d).amenities,
     (applyPlaceUpdate p d).reviews)
      = (p.id, p.created_at, p.owner, p.amenities, p.reviews)
  | [], _ => rfl
  | kv :: tl, p => by
      have h := applyPlaceUpdate_frame tl
        (if ["title", "description", "price", "latitude", "longitude"].contains kv.1 then
          setattrPlace p kv.1 kv.2 else p)
      simp only [applyPlaceUpdate, List.foldl_cons] at h ⊢
      rw [h]
      split
      · exact setattrPlace_frame p kv.1 kv.2
      · rfl

/-- `setattr` on a user never touches id or creation time. -/
theorem setattrUser_frame (u : User) (k : String) (v : PVal) :
    ((setattrUser u k v).id, (setattrUser u k v).created_at) = (u.id, u.created_at) := by
  unfold setattrUser
  split_ifs <;> rfl

/-- The `update_user` loop never touches id or creation time. -/
theorem applyUserUpdate_frame : ∀ (d : PDict) (u : User),
    ((applyUserUpdate u d).id, (applyUserUpdate u d).created_at) = (u.id, u.created_at)
  | [], _ => rfl
  | kv :: tl, u => by
      have h := applyUserUpdate_frame tl
        (if userHasattr kv.1 && !(["id", "created_at"].contains kv.1) then
          setattrUser u kv.1 kv.2 else u)
      simp only [applyUserUpdate, List.foldl_cons] at h ⊢
      rw [h]
      split
      · exact setattrUser_frame u kv.1 kv.2
      · rfl

/-- `setattr` on a review never touches id, creation time, place id or
user id. -/
theorem setattrReview_frame (r : Review) (k : String) (v : PVal) :
    ((setattrReview r k v).id, (setattrReview r k v).created_at,
     (setattrReview r k v).place_id, (setattrReview r k v).user_id)
      = (r.id, r.created_at, r.place_id, r.user_id) := by
  unfold setattrReview
  split_ifs <;> rfl

/-- The `update_review` loop never touches id, creation time, place id
or user id. -/
theorem applyReviewUpdate_frame : ∀ (d : PDict) (r : Review),
    ((applyReviewUpdate r d).id, (applyReviewUpdate r d).created_at,
     (applyReviewUpdate r d).place_id, (applyReviewUpdate r d).user_id)
      = (r.id, r.created_at, r.place_id, r.user_id)
  | [], _ => rfl
  | kv :: tl, r => by
      have h := applyReviewUpdate_frame tl
        (if ["text", "rating"].contains kv.1 then setattrReview r kv.1 kv.2 else r)
      simp only [applyReviewUpdate, List.foldl_cons] at h ⊢
      rw [h]
      split
      · exact setattrReview_frame r kv.1 kv.2
      · rfl

/-! ## Claim theorems -/

/-- C3 (corrected), counterexample to the claim as stated: on an id
absent from the place repository, `update_place` raises
`ValueError("Place not found")` instead of returning an absence
value. -/
theorem update_place_absent_raises_cex :
    (HBnBFacade.init.update_place "missing" []).2 = .error "Place not found" := by
  decide

/-- C3 (amended): `update_user`, `update_amenity` and `update_review`
signal an absent id by returning an absence value without raising, but
`update_place` raises `ValueError("Place not found")`. -/
theorem update_absent_signals (f : HBnBFacade) (id : String) (d : PDict) :
    (repoGet f.user_repo id = Option.none → (f.update_user id d).2 = .ok Option.none) ∧
    (repoGet f.amenity_repo id = Option.none → (f.update_amenity id d).2 = .ok Option.none) ∧
    (repoGet f.review_repo id = Option.none → (f.update_review id d).2 = .ok Option.none) ∧
    (repoGet f.place_repo id = Option.none →
      (f.update_place id d).2 = .error "Place not found") := by
  refine ⟨fun h => ?_, fun h => ?_, fun h => ?_, fun h => ?_⟩ <;>
    simp [HBnBFacade.update_user, HBnBFacade.update_amenity, HBnBFacade.update_review,
      HBnBFacade.update_place, h]

/-- C3 witness: the amended behavior at a concrete absent id. -/
theorem update_absent_signals_witness :
    (HBnBFacade.init.update_user "x" []).2 = .ok Option.none ∧
    (HBnBFacade.init.update_amenity "x" []).2 = .ok Option.none ∧
    (HBnBFacade.init.update_review "x" []).2 = .ok Option.none ∧
    (HBnBFacade.init.update_place "x" []).2 = .error "Place not found" :=
  ⟨(update_absent_signals HBnBFacade.init "x" []).1 (by decide),
   (update_absent_signals HBnBFacade.init "x" []).2.1 (by decide),
   (update_absent_signals HBnBFacade.init "x" []).2.2.1 (by decide),
   (update_absent_signals HBnBFacade.init "x" []).2.2.2 (by decide)⟩

/-- C8 (confirmed): `delete_review` removes the review and reports
`True` when the id was present (so a second delete reports `False`),
reports `False` on an absent id, and never touches the place
repository (no cascade removal from any place's review list). -/
theorem delete_review_behavior (f : HBnBFacade) (rid : String) :
    (repoGet f.review_repo rid = Option.none →
      (f.delete_review rid).2 = false ∧
      (f.delete_review rid).1.review_repo = f.review_repo ∧
      (f.delete_review rid).1.place_repo = f.place_repo) ∧
    ((repoGet f.review_repo rid).isSome →
      (f.delete_review rid).2 = true ∧
      repoGet (f.delete_review rid).1.review_repo rid = Option.none ∧
      ((f.delete_review rid).1.delete_review rid).2 = false ∧
      (f.delete_review rid).1.place_repo = f.place_repo) := by
  constructor
  · intro h
    simp [HBnBFacade.delete_review, h]
  · intro h
    obtain ⟨r, hr⟩ := Option.isSome_iff_exists.mp h
    refine ⟨?_, ?_, ?_, ?_⟩ <;>
      simp [HBnBFacade.delete_review, hr, repoGet_repoDelete]

/-- C8 witness: deleting review "3" in the concrete scenario. -/
theorem delete_review_behavior_witness :
    (stateUAPR.delete_review "3").2 = true ∧
    repoGet (stateUAPR.delete_review "3").1.review_repo "3" = Option.none ∧
    ((stateUAPR.delete_review "3").1.delete_review "3").2 = false ∧
    (stateUAPR.delete_review "3").1.place_repo = stateUAPR.place_repo :=
  (delete_review_behavior stateUAPR "3").2 (by decide)

/-- C9 (confirmed): when `create_place` or `create_review` raises, no
repository is modified (so in particular no place's review list is
altered by the call). -/
theorem create_atomic_on_failure (f : HBnBFacade) (d : PDict) (e : String) :
    ((f.create_place d).2 = .error e →
      (f.create_place d).1.user_repo = f.user_repo ∧
      (f.create_place d).1.place_repo = f.place_repo ∧
      (f.create_place d).1.review_repo = f.review_repo ∧
      (f.create_place d).1.amenity_repo = f.amenity_repo) ∧
    ((f.create_review d).2 = .error e →
      (f.create_review d).1.user_repo = f.user_repo ∧
      (f.create_review d).1.place_repo = f.place_repo ∧
      (f.create_review d).1.review_repo = f.review_repo ∧
      (f.create_review d).1.amenity_repo = f.amenity_repo) := by
  constructor
  · intro h
    simp only [HBnBFacade.create_place] at h ⊢
    repeat' split at h
    all_goals simp_all
  · intro h
    simp only [HBnBFacade.create_review] at h ⊢
    repeat' split at h
    all_goals simp_all

/-- C9 witness: a failing `create_place` (absent owner) and a failing
`create_review` (absent place) on the initial state leave every
repository empty. -/
theorem create_atomic_on_failure_witness :
    ((HBnBFacade.init.create_place placeData0).2 = .error "Invalid owner_id" ∧
      (HBnBFacade.init.create_place placeData0).1.place_repo = HBnBFacade.init.place_repo) ∧
    ((HBnBFacade.init.create_review reviewData0).2 = .error "Invalid place_id" ∧
      (HBnBFacade.init.create_review reviewData0).1.review_repo = HBnBFacade.init.review_repo) :=
  ⟨⟨by decide,
    ((create_atomic_on_failure HBnBFacade.init placeData0 "Invalid owner_id").1
      (by decide)).2.1⟩,
   ⟨by decide,
    ((create_atomic_on_failure HBnBFacade.init reviewData0 "Invalid place_id").2
      (by decide)).2.2.1⟩⟩

end HBnB

namespace HBnB

/-- C2 (corrected), counterexample to the claim as stated: updating
amenity "1" (named "Wifi") with an empty name raises the validation
error, but the stored amenity does NOT keep its previous name — the
mutation happened on the repository's object before `validate()` ran,
so the stored name is now the invalid empty string. -/
theorem update_amenity_mutation_persists_cex :
    (stateUA.update_amenity "1" [("name", PVal.str "")]).2
        = .error "Amenity name is required" ∧
    ((stateUA.update_amenity "1" [("name", PVal.str "")]).1.get_amenity "1").map
        Amenity.name = some (PVal.str "") := by
  decide

/-- C2 (amended): `update_amenity` on an existing amenity with an
invalid new name raises the validation error and leaves `updated_at`
untouched, but the stored amenity carries the new (invalid) name — the
in-memory mutation precedes validation and persists through the
repository alias; on a non-existent id it returns absence without
raising. -/
theorem update_amenity_invalid_name_behavior (f : HBnBFacade) (aid : String) (d : PDict) :
    (∀ (a : Amenity) (v : PVal) (e : String),
      repoGet f.amenity_repo aid = some a →
      dictGet d "name" = some v →
      ({ a with name := v } : Amenity).validate = .error e →
      (f.update_amenity aid d).2 = .error e ∧
      repoGet (f.update_amenity aid d).1.amenity_repo aid = some { a with name := v }) ∧
    (repoGet f.amenity_repo aid = Option.none →
      (f.update_amenity aid d).2 = .ok Option.none) := by
  constructor
  · intro a v e ha hv he
    have hsome : (repoGet f.amenity_repo aid).isSome := by simp [ha]
    constructor
    · simp [HBnBFacade.update_amenity, ha, hv, he]
    · simp [HBnBFacade.update_amenity, ha, hv, he]
      exact repoGet_repoSet f.amenity_repo aid _ hsome
  · intro h
    simp [HBnBFacade.update_amenity, h]

/-- C2 witness: the amended behavior at the concrete scenario (amenity
"1" named "Wifi", invalid new name `""`). -/
theorem update_amenity_invalid_name_behavior_witness :
    (stateUA.update_amenity "1" [("name", PVal.str "")]).2
        = .error "Amenity name is required" ∧
    repoGet (stateUA.update_amenity "1" [("name", PVal.str "")]).1.amenity_repo "1"
        = some { amenity1 with name := PVal.str "" } :=
  (update_amenity_invalid_name_behavior stateUA "1" [("name", PVal.str "")]).1
    amenity1 (PVal.str "") "Amenity name is required"
    (by decide) (by decide) (by decide)

/-- C7 (corrected), counterexample to the claim as stated: `update_user`
has no explicit allow-list; a data mapping naming `place_list` (an
attribute outside any allow-list) overwrites that attribute on the
stored user. -/
theorem update_user_denylist_cex :
    ((stateU.update_user "0" [("place_list", PVal.str "oops")]).1.get_user "0").map
        User.place_list = some (PVal.str "oops") ∧
    (stateU.get_user "0").map User.place_list = some (PVal.list []) := by
  decide

/-- C7 (amended): `update_place`, `update_review` and `update_amenity`
apply only their allow-listed fields, leaving id, creation timestamp
and every other listed attribute unchanged; `update_user` filters with
`hasattr` plus a deny-list of `id`/`created_at` (so any other existing
attribute may be overwritten), but id and `created_at` are still never
modified by any update. -/
theorem update_frame_fields (f : HBnBFacade) (id : String) (d : PDict) :
    (∀ p, repoGet f.place_repo id = some p →
      ∃ q, repoGet (f.update_place id d).1.place_repo id = some q ∧
        q.id = p.id ∧ q.created_at = p.created_at ∧ q.owner = p.owner ∧
        q.amenities = p.amenities ∧ q.reviews = p.reviews) ∧
    (∀ r, repoGet f.review_repo id = some r →
      ∃ q, repoGet (f.update_review id d).1.review_repo id = some q ∧
        q.id = r.id ∧ q.created_at = r.created_at ∧ q.place_id = r.place_id ∧
        q.user_id = r.user_id) ∧
    (∀ a, repoGet f.amenity_repo id = some a →
      ∃ q, repoGet (f.update_amenity id d).1.amenity_repo id = some q ∧
        q.id = a.id ∧ q.created_at = a.created_at) ∧
    (∀ u, repoGet f.user_repo id = some u →
      ∃ q, repoGet (f.update_user id d).1.user_repo id = some q ∧
        q.id = u.id ∧ q.created_at = u.created_at) := by
  refine ⟨?_, ?_, ?_, ?_⟩
  · intro p hp
    have hsome : (repoGet f.place_repo id).isSome := by simp [hp]
    have hf := applyPlaceUpdate_frame d p
    simp only [Prod.mk.injEq] at hf
    refine ⟨{ applyPlaceUpdate p d with updated_at := .int (f.time + 1) }, ?_, ?_, ?_, ?_, ?_, ?_⟩
    · simp [HBnBFacade.update_place, hp]
      exact repoGet_repoSet f.place_repo id _ hsome
    · exact hf.1
    · exact hf.2.1
    · exact hf.2.2.1
    · exact hf.2.2.2.1
    · exact hf.2.2.2.2
  · intro r hr
    have hsome : (repoGet f.review_repo id).isSome := by simp [hr]
    have hf := applyReviewUpdate_frame d r
    simp only [Prod.mk.injEq] at hf
    by_cases hv : ∃ e, (applyReviewUpdate r d).validate = .error e
    · obtain ⟨e, he⟩ := hv
      refine ⟨applyReviewUpdate r d, ?_, hf.1, hf.2.1, hf.2.2.1, hf.2.2.2⟩
      simp [HBnBFacade.update_review, hr, he]
      exact repoGet_repoSet f.review_repo id _ hsome
    · have hok : (applyReviewUpdate r d).validate = .ok () := by
        cases hval : (applyReviewUpdate r d).validate with
        | ok u => cases u; rfl
        | error e => exact absurd ⟨e, hval⟩ hv
      refine ⟨{ applyReviewUpdate r d with updated_at := .int (f.time + 1) },
        ?_, hf.1, hf.2.1, hf.2.2.1, hf.2.2.2⟩
      simp [HBnBFacade.update_review, hr, hok]
      exact repoGet_repoSet f.review_repo id _ hsome
  · intro a ha
    have hsome : (repoGet f.amenity_repo id).isSome := by simp [ha]
    cases hn : dictGet d "name" with
    | none =>
        refine ⟨a, ?_, rfl, rfl⟩
        simpa [HBnBFacade.update_amenity, ha, hn] using ha
    | some v =>
        by_cases hv : ∃ e, ({ a with name := v } : Amenity).validate = .error e
        · obtain ⟨e, he⟩ := hv
          refine ⟨{ a with name := v }, ?_, rfl, rfl⟩
          simp [HBnBFacade.update_amenity, ha, hn, he]
          exact repoGet_repoSet f.amenity_repo id _ hsome
        · have hok : ({ a with name := v } : Amenity).validate = .ok () := by
            cases hval : ({ a with name := v } : Amenity).validate with
            | ok u => cases u; rfl
            | error e => exact absurd ⟨e, hval⟩ hv
          refine ⟨{ a with name := v, updated_at := .int (f.time + 1) }, ?_, rfl, rfl⟩
          simp [HBnBFacade.update_amenity, ha, hn, hok]
          exact repoGet_repoSet f.amenity_repo id _ hsome
  · intro u hu
    have hsome : (repoGet f.user_repo id).isSome := by simp [hu]
    have hf := applyUserUpdate_frame d u
    simp only [Prod.mk.injEq] at hf
    refine ⟨{ applyUserUpdate u d with updated_at := .int (f.time + 1) }, ?_, hf.1, hf.2⟩
    simp [HBnBFacade.update_user, hu]
    exact repoGet_repoSet f.user_repo id _ hsome

/-- C7 witness: frame preservation at the concrete scenario, place "2". -/
theorem update_frame_fields_witness :
    ∃ q, repoGet (stateUAPR.update_place "2" [("title", PVal.str "New")]).1.place_repo "2"
        = some q ∧
      q.id = place2r.id ∧ q.created_at = place2r.created_at ∧ q.owner = place2r.owner ∧
      q.amenities = place2r.amenities ∧ q.reviews = place2r.reviews :=
  (update_frame_fields stateUAPR "2" [("title", PVal.str "New")]).1 place2r (by decide)

end HBnB

namespace HBnB

/-- A successful `User.__init__` returns exactly the assigned record. -/
theorem User_new_ok {id : String} {now : Int} {fn ln em ia : PVal} {u : User}
    (h : User.new id now fn ln em ia = .ok u) :
    u = { id := id, created_at := now, updated_at := .int now, first_name := fn
          last_name := ln, email := em, is_admin := ia, place_list := .list []
          reviews := .list [] } := by
  unfold User.new at h
  simp only [] at h
  split at h
  · cases h
  · cases h; rfl

/-- A successful `Review.__init__` returns exactly the assigned record. -/
theorem Review_new_ok {id : String} {now : Int} {t rt pidV uidV : PVal} {r : Review}
    (h : Review.new id now t rt pidV uidV = .ok r) :
    r = { id := id, created_at := now, updated_at := .int now, text := t
          rating := rt, place_id := pidV, user_id := uidV } := by
  unfold Review.new at h
  simp only [] at h
  split at h
  · cases h
  · cases h; rfl

/-- A successful `Place.__init__` returns exactly the assigned record. -/
theorem Place_new_ok {id : String} {now : Int} {t de pr la lo : PVal}
    {ow : Option User} {am : List Amenity} {rv : List Review} {p : Place}
    (h : Place.new id now t de pr la lo ow am rv = .ok p) :
    p = { id := id, created_at := now, updated_at := .int now, title := t
          description := de, price := pr, latitude := la, longitude := lo
          owner := ow, amenities := am, reviews := rv } := by
  unfold Place.new at h
  simp only [] at h
  split at h
  · cases h
  · cases h; rfl

/-- C1 (corrected), counterexample to the claim as stated: updating user
"0" with an email that fails validation succeeds, persists the invalid
email, and the stored user no longer passes `validate()` — `update_user`
never re-runs validation. -/
theorem update_user_skips_revalidation_cex :
    (stateU.update_user "0" [("email", PVal.str "bad")]).2.toOption.isSome = true ∧
    ((stateU.update_user "0" [("email", PVal.str "bad")]).1.get_user "0").map
        User.email = some (PVal.str "bad") ∧
    ((stateU.update_user "0" [("email", PVal.str "bad")]).1.get_user "0").map
        User.validate = some (.error "Invalid email format") := by
  decide

/-- C1 (amended): on an existing entity, `update_user` and
`update_place` apply the fields and refresh `updated_at` WITHOUT
re-running validation (they always succeed); `update_review` re-runs
validation on the mutated review (failure propagates the error and
skips `save()`, leaving the mutated review stored with its old
`updated_at`; success refreshes `updated_at`), and `update_amenity`
does the same when a `name` key is present. -/
theorem update_revalidation_per_entity (f : HBnBFacade) (id : String) (d : PDict) :
    (∀ u, repoGet f.user_repo id = some u →
      (f.update_user id d).2
        = .ok (some { applyUserUpdate u d with updated_at := .int (f.time + 1) })) ∧
    (∀ p, repoGet f.place_repo id = some p →
      (f.update_place id d).2
        = .ok { applyPlaceUpdate p d with updated_at := .int (f.time + 1) }) ∧
    (∀ r, repoGet f.review_repo id = some r →
      (∀ e, (applyReviewUpdate r d).validate = .error e →
        (f.update_review id d).2 = .error e ∧
        repoGet (f.update_review id d).1.review_repo id = some (applyReviewUpdate r d)) ∧
      ((applyReviewUpdate r d).validate = .ok () →
        (f.update_review id d).2
          = .ok (some { applyReviewUpdate r d with updated_at := .int (f.time + 1) }))) ∧
    (∀ a v, repoGet f.amenity_repo id = some a → dictGet d "name" = some v →
      (∀ e, ({ a with name := v } : Amenity).validate = .error e →
        (f.update_amenity id d).2 = .error e ∧
        repoGet (f.update_amenity id d).1.amenity_repo id = some { a with name := v }) ∧
      (({ a with name := v } : Amenity).validate = .ok () →
        (f.update_amenity id d).2
          = .ok (some { a with name := v, updated_at := .int (f.time + 1) }))) := by
  refine ⟨?_, ?_, ?_, ?_⟩
  · intro u hu
    simp [HBnBFacade.update_user, hu]
  · intro p hp
    simp [HBnBFacade.update_place, hp]
  · intro r hr
    have hsome : (repoGet f.review_repo id).isSome := by simp [hr]
    refine ⟨fun e he => ⟨?_, ?_⟩, fun hok => ?_⟩
    · simp [HBnBFacade.update_review, hr, he]
    · simp [HBnBFacade.update_review, hr, he]
      exact repoGet_repoSet f.review_repo id _ hsome
    · simp [HBnBFacade.update_review, hr, hok]
  · intro a v ha hv
    have hsome : (repoGet f.amenity_repo id).isSome := by simp [ha]
    refine ⟨fun e he => ⟨?_, ?_⟩, fun hok => ?_⟩
    · simp [HBnBFacade.update_amenity, ha, hv, he]
    · simp [HBnBFacade.update_amenity, ha, hv, he]
      exact repoGet_repoSet f.amenity_repo id _ hsome
    · simp [HBnBFacade.update_amenity, ha, hv, hok]

/-- C1 witness: the amended behavior at the concrete scenario — a user
update with an invalid email succeeds and refreshes `updated_at`. -/
theorem update_revalidation_per_entity_witness :
    (stateU.update_user "0" [("email", PVal.str "bad")]).2
      = .ok (some { applyUserUpdate user0 [("email", PVal.str "bad")] with
                    updated_at := .int (stateU.time + 1) }) :=
  (update_revalidation_per_entity stateU "0" [("email", PVal.str "bad")]).1
    user0 (by decide)

/-- C4 (corrected), counterexample to the claim as stated: creating a
place that references the absent amenity id "ghost" succeeds (with an
empty amenity list) instead of failing with a domain error. -/
theorem create_place_skips_absent_amenity_cex :
    repoGet stateUA.amenity_repo "ghost" = Option.none ∧
    ((stateUA.create_place
        (placeData0 ++ [("amenities", PVal.list [.str "ghost"])])).2.toOption.map
      Place.amenities) = some [] := by
  decide

/-- C4 (amended): `create_place` fails with `Invalid owner_id` when the
owner reference does not resolve, but absent amenity ids are silently
skipped: a successful creation stores exactly the amenities whose ids
were found in the repository. -/
theorem create_place_reference_resolution (f : HBnBFacade) (d : PDict) :
    (pvGet f.user_repo ((dictGet d "owner_id").getD .none) = Option.none →
      (f.create_place d).2 = .error "Invalid owner_id") ∧
    (∀ ids p, dictGet d "amenities" = some (.list ids) →
      (f.create_place d).2 = .ok p →
      p.amenities = ids.filterMap (fun w => pvGet f.amenity_repo w)) := by
  constructor
  · intro h
    simp [HBnBFacade.create_place, h]
  · intro ids p hids hok
    simp only [HBnBFacade.create_place, hids, pyIter, Except.map] at hok
    repeat' split at hok
    all_goals (try (exfalso; exact Except.noConfusion hok))
    all_goals simp only [] at hok
    rename_i heq
    cases hok
    rw [Place_new_ok heq]

/-- C4 witness: a place created with one absent ("ghost") and one
present ("1") amenity id stores exactly the present amenity. -/
theorem create_place_reference_resolution_witness :
    ((stateUA.create_place
        (placeData0 ++ [("amenities", PVal.list [.str "ghost", .str "1"])])).2.toOption.map
      Place.amenities) = some [amenity1] := by
  have hok : (stateUA.create_place
      (placeData0 ++ [("amenities", PVal.list [.str "ghost", .str "1"])])).2
        = .ok place2g := by decide
  have hp := (create_place_reference_resolution stateUA
    (placeData0 ++ [("amenities", PVal.list [.str "ghost", .str "1"])])).2
    [.str "ghost", .str "1"] place2g (by decide) hok
  rw [hok]
  have ham : place2g.amenities = [amenity1] := by rw [hp]; decide
  simp [Except.toOption, ham]

end HBnB

namespace HBnB

/-- C5 (confirmed): `create_review` fails with `Invalid place_id` when
the place reference does not resolve, with `Invalid user_id` when the
place resolves but the user does not; on success the created review
appears in `get_reviews_by_place` and is appended to the referenced
place's review list exactly once (the freshness hypothesis on the
generated id always holds on reachable states, where stored ids are
prior counter values). -/
theorem create_review_refs_and_append (f : HBnBFacade) (d : PDict) (pid uid : String)
    (hp : dictGet d "place_id" = some (.str pid))
    (hu : dictGet d "user_id" = some (.str uid)) :
    (repoGet f.place_repo pid = Option.none →
      (f.create_review d).2 = .error "Invalid place_id") ∧
    (∀ place, repoGet f.place_repo pid = some place →
      repoGet f.user_repo uid = Option.none →
      (f.create_review d).2 = .error "Invalid user_id") ∧
    (∀ place r, repoGet f.place_repo pid = some place →
      (∀ r0 ∈ place.reviews, r0.id ≠ toString f.counter) →
      (f.create_review d).2 = .ok r →
      r ∈ (f.create_review d).1.get_reviews_by_place pid ∧
      (∃ place2x, repoGet (f.create_review d).1.place_repo pid = some place2x ∧
        place2x.reviews.count r = 1)) := by
  refine ⟨?_, ?_, ?_⟩
  · intro h
    simp [HBnBFacade.create_review, hp, hu, pvGet, h]
  · intro place hplace huser
    simp [HBnBFacade.create_review, hp, hu, pvGet, hplace, huser]
  · intro place r hplace hfresh hok
    have hpsome : (repoGet f.place_repo pid).isSome := by simp [hplace]
    cases huser : repoGet f.user_repo uid with
    | none =>
        exfalso
        simp [HBnBFacade.create_review, hp, hu, pvGet, hplace, huser] at hok
    | some user =>
    cases htext : dictGet d "text" with
    | none =>
        exfalso
        simp [HBnBFacade.create_review, hp, hu, pvGet, hplace, huser, htext] at hok
    | some tV =>
    cases hrating : dictGet d "rating" with
    | none =>
        exfalso
        simp [HBnBFacade.create_review, hp, hu, pvGet, hplace, huser, htext, hrating] at hok
    | some rV =>
    cases hnew : Review.new (freshId { f with time := f.time + 1 }) (f.time + 1) tV rV
        (.str pid) (.str uid) with
    | error e =>
        exfalso
        simp [HBnBFacade.create_review, hp, hu, pvGet, hplace, huser, htext, hrating,
          hnew] at hok
    | ok rr =>
        simp only [HBnBFacade.create_review, hp, hu, pvGet, hplace, huser, htext, hrating,
          hnew, Except.ok.injEq] at hok
        subst hok
        have hrec := Review_new_ok hnew
        have hid : rr.id = toString f.counter := by rw [hrec]; rfl
        have hpid : rr.place_id = .str pid := by rw [hrec]
        have hnotmem : rr ∉ place.reviews := fun hmem => hfresh rr hmem hid
        have hadd : place.add_review rr = { place with reviews := place.reviews ++ [rr] } := by
          unfold Place.add_review
          rw [if_neg hnotmem]
        constructor
        · simp only [HBnBFacade.create_review, hp, hu, pvGet, hplace, huser, htext, hrating,
            hnew, HBnBFacade.get_reviews_by_place, repoAll_repoAdd]
          refine List.mem_filter.mpr ⟨List.mem_append_right _ ?_, ?_⟩
          · exact List.mem_singleton.mpr rfl
          · rw [hpid]
            exact pyEq_refl (.str pid)
        · refine ⟨place.add_review rr, ?_, ?_⟩
          · simp only [HBnBFacade.create_review, hp, hu, pvGet, hplace, huser, htext, hrating,
              hnew, pvSet]
            exact repoGet_repoSet f.place_repo pid _ hpsome
          · rw [hadd]
            simp only [List.count_append]
            rw [List.count_eq_zero.mpr hnotmem]
            simp

/-- C5 witness: the concrete scenario — review "3" of place "2" by
user "0" appears in `get_reviews_by_place "2"` and is in the stored
place's list exactly once. -/
theorem create_review_refs_and_append_witness :
    review3 ∈ (stateUAP.create_review reviewData0).1.get_reviews_by_place "2" ∧
    (∃ place2x, repoGet (stateUAP.create_review reviewData0).1.place_repo "2"
        = some place2x ∧ place2x.reviews.count review3 = 1) :=
  (create_review_refs_and_append stateUAP reviewData0 "2" "0"
    (by decide) (by decide)).2.2 place2 review3 (by decide) (by decide) (by decide)

end HBnB

namespace HBnB

/-- `find?` skips a prefix with no match. -/
theorem find?_append_of_none {α : Type} (p : α → Bool) (l1 l2 : List α)
    (h : l1.find? p = Option.none) : (l1 ++ l2).find? p = l2.find? p := by
  induction l1 with
  | nil => rfl
  | cons hd tl ih =>
      cases hp : p hd with
      | true => simp [List.find?, hp] at h
      | false =>
          simp only [List.find?, hp] at h
          simpa [List.find?, hp] using ih h

/-- Whether `User.__init__` succeeds does not depend on the generated
id or the clock — only on the payload fields. -/
theorem User_new_isOk_indep (id1 id2 : String) (n1 n2 : Int) (fn ln em ia : PVal) :
    (User.new id1 n1 fn ln em ia).toOption.isSome
      = (User.new id2 n2 fn ln em ia).toOption.isSome := by
  unfold User.new
  simp only []
  have hval : User.validate
      { id := id1, created_at := n1, updated_at := .int n1, first_name := fn
        last_name := ln, email := em, is_admin := ia, place_list := .list []
        reviews := .list [] }
      = User.validate
      { id := id2, created_at := n2, updated_at := .int n2, first_name := fn
        last_name := ln, email := em, is_admin := ia, place_list := .list []
        reviews := .list [] } := rfl
  rw [hval]
  cases hv : User.validate
      { id := id2, created_at := n2, updated_at := .int n2, first_name := fn
        last_name := ln, email := em, is_admin := ia, place_list := .list []
        reviews := .list [] } <;>
    simp [hv, Except.toOption]

/-- C10 (confirmed): `create_user` performs no email-uniqueness check:
whether it succeeds is independent of the repository state, two
creations with the same valid email both store their user, and
`get_user_by_email` then returns the first-inserted matching user. -/
theorem create_user_no_email_uniqueness (f : HBnBFacade) (d1 d2 : PDict) (em : PVal)
    (u1 u2 : User) :
    (∀ g : HBnBFacade,
      (f.create_user d1).2.toOption.isSome = (g.create_user d1).2.toOption.isSome) ∧
    (dictGet d1 "email" = some em →
     dictGet d2 "email" = some em →
     (f.create_user d1).2 = .ok u1 →
     ((f.create_user d1).1.create_user d2).2 = .ok u2 →
     (∀ u ∈ repoAll f.user_repo, pyEq u.email em = false) →
     repoAll ((f.create_user d1).1.create_user d2).1.user_repo
        = repoAll f.user_repo ++ [u1, u2] ∧
     ((f.create_user d1).1.create_user d2).1.get_user_by_email em = some u1 ∧
     u1 ≠ u2) := by
  constructor
  · intro g
    simp only [HBnBFacade.create_user]
    cases hall : (d1.all (fun p =>
        ["first_name", "last_name", "email", "is_admin"].contains p.1)) with
    | false => simp [Except.toOption]
    | true =>
    cases hfn : dictGet d1 "first_name" with
    | none => simp [hfn, Except.toOption]
    | some fn =>
    cases hln : dictGet d1 "last_name" with
    | none => simp [hfn, hln, Except.toOption]
    | some ln =>
    cases hem : dictGet d1 "email" with
    | none => simp [hfn, hln, hem, Except.toOption]
    | some em1 =>
    have hok := User_new_isOk_indep (freshId { f with time := f.time + 1 })
      (freshId { g with time := g.time + 1 }) (f.time + 1) (g.time + 1) fn ln em1
      ((dictGet d1 "is_admin").getD (.bool false))
    cases hn1 : User.new (freshId { f with time := f.time + 1 }) (f.time + 1) fn ln em1
        ((dictGet d1 "is_admin").getD (.bool false)) <;>
      cases hn2 : User.new (freshId { g with time := g.time + 1 }) (g.time + 1) fn ln em1
          ((dictGet d1 "is_admin").getD (.bool false)) <;>
      rw [hn1, hn2] at hok <;>
      simp_all [Except.toOption]
  · intro h1e h2e h1 h2 hno
    simp only [HBnBFacade.create_user] at h1
    cases hall1 : (d1.all (fun p =>
        ["first_name", "last_name", "email", "is_admin"].contains p.1)) with
    | false =>
        rw [hall1] at h1
        simp at h1
    | true =>
    rw [hall1] at h1
    cases hfn1 : dictGet d1 "first_name" with
    | none => exfalso; simp [hfn1] at h1
    | some fn1 =>
    cases hln1 : dictGet d1 "last_name" with
    | none => exfalso; simp [hfn1, hln1] at h1
    | some ln1 =>
    cases hn1 : User.new (freshId { f with time := f.time + 1 }) (f.time + 1) fn1 ln1 em
        ((dictGet d1 "is_admin").getD (.bool false)) with
    | error e =>
        exfalso
        simp [hfn1, hln1, h1e, hn1] at h1
    | ok uu1 =>
    simp [hfn1, hln1, h1e, hn1] at h1
    rw [h1] at hn1
    have hst1 : (f.create_user d1).1
        = { f with user_repo := repoAdd f.user_repo u1.id u1,
                   counter := f.counter + 1, time := f.time + 1 } := by
      simp only [HBnBFacade.create_user]
      rw [hall1]
      simp [hfn1, hln1, h1e, hn1]
    rw [hst1] at h2 ⊢
    simp only [HBnBFacade.create_user] at h2
    cases hall2 : (d2.all (fun p =>
        ["first_name", "last_name", "email", "is_admin"].contains p.1)) with
    | false =>
        rw [hall2] at h2
        simp at h2
    | true =>
    rw [hall2] at h2
    cases hfn2 : dictGet d2 "first_name" with
    | none => exfalso; simp [hfn2] at h2
    | some fn2 =>
    cases hln2 : dictGet d2 "last_name" with
    | none => exfalso; simp [hfn2, hln2] at h2
    | some ln2 =>
    cases hn2 : User.new (toString (f.counter + 1)) (f.time + 1 + 1) fn2 ln2 em
        ((dictGet d2 "is_admin").getD (.bool false)) with
    | error e =>
        exfalso
        simp [hfn2, hln2, h2e, freshId, hn2] at h2
    | ok uu2 =>
    simp [hfn2, hln2, h2e, freshId, hn2] at h2
    rw [h2] at hn2
    have hrec1 := User_new_ok hn1
    have hrec2 := User_new_ok hn2
    have hem1 : u1.email = em := by rw [hrec1]
    have hcat1 : u1.created_at = f.time + 1 := by rw [hrec1]
    have hcat2 : u2.created_at = f.time + 1 + 1 := by rw [hrec2]
    refine ⟨?_, ?_, ?_⟩
    · simp only [HBnBFacade.create_user]
      rw [hall2]
      simp [hfn2, hln2, h2e, freshId, hn2, repoAll_repoAdd]
    · simp only [HBnBFacade.create_user]
      rw [hall2]
      simp only [HBnBFacade.get_user_by_email]
      simp [hfn2, hln2, h2e, freshId, hn2]
      rw [repoAll_repoAdd, repoAll_repoAdd, List.append_assoc,
        find?_append_of_none _ _ _
          (List.find?_eq_none.mpr (fun u hu => by simp [hno u hu]))]
      simp [List.find?, hem1, pyEq_refl]
    · intro heq
      rw [heq] at hcat1
      rw [hcat1] at hcat2
      omega

/-- C10 witness: two identical valid `create_user` calls on the empty
state both store their user, and `get_user_by_email` returns the
first. -/
theorem create_user_no_email_uniqueness_witness :
    repoAll ((HBnBFacade.init.create_user userData0).1.create_user userData0).1.user_repo
        = repoAll HBnBFacade.init.user_repo ++ [user0, user0b] ∧
    ((HBnBFacade.init.create_user userData0).1.create_user userData0).1.get_user_by_email
        (.str "a@b.c") = some user0 ∧
    user0 ≠ user0b :=
  (create_user_no_email_uniqueness HBnBFacade.init userData0 userData0
    (.str "a@b.c") user0 user0b).2
    (by decide) (by decide) (by decide) (by decide) (by decide)

end HBnB

namespace HBnB

/-- Stripping the empty string gives the empty string. -/
theorem strStrip_empty : strStrip "" = "" := rfl

set_option maxHeartbeats 2000000 in
/-- `User.validate` succeeds exactly on the flat rule set: first and
last name present, non-blank and at most 50 characters, email present,
non-blank, containing `@` and a `.` after it. -/
theorem User_validate_ok_iff (u : User) :
    (u.validate = .ok ()) ↔
      (specValidName 50 u.first_name && specValidName 50 u.last_name
        && specValidEmail u.email) = true := by
  obtain ⟨uid, cat, uat, fn, ln, em, ia, pl, rv⟩ := u
  rcases fn with _ | s1 | i1 | q1 | b1 | l1 <;>
  rcases ln with _ | s2 | i2 | q2 | b2 | l2 <;>
  rcases em with _ | s3 | i3 | q3 | b3 | l3 <;>
    simp [User.validate, PVal.truthy, pyStrip, pyLen, specValidName, specValidEmail,
      Except.instMonad, Except.bind, Except.pure, throwThe] <;>
    split_ifs <;>
    simp_all [strStrip_empty] <;>
    try (intros; casesm* _ ∨ _ <;> first | simp_all | linarith)

set_option maxHeartbeats 1000000 in
/-- `Amenity.validate` succeeds exactly on the flat rule set: name
present, non-blank and at most 50 characters. -/
theorem Amenity_validate_ok_iff (a : Amenity) :
    (a.validate = .ok ()) ↔ specValidName 50 a.name = true := by
  obtain ⟨aid, cat, uat, nm⟩ := a
  rcases nm with _ | s | i | q | b | l <;>
    simp [Amenity.validate, PVal.truthy, pyStrip, pyLen, specValidName,
      Except.instMonad, Except.bind, Except.pure, throwThe] <;>
    split_ifs <;> simp_all [strStrip_empty]

set_option maxHeartbeats 2000000 in
/-- `Review.validate` succeeds exactly on the flat rule set: text
present and non-blank, rating an integer in [1, 5], place id and user
id truthy. -/
theorem Review_validate_ok_iff (r : Review) :
    (r.validate = .ok ()) ↔
      (specPresentText r.text && specValidRating r.rating
        && r.place_id.truthy && r.user_id.truthy) = true := by
  obtain ⟨rid, cat, uat, t, rt, pidV, uidV⟩ := r
  rcases t with _ | s | i | q | b | l <;>
  rcases rt with _ | s2 | i2 | q2 | b2 | l2 <;>
    simp [Review.validate, PVal.truthy, pyStrip, specPresentText, specValidRating,
      PVal.isInt, PVal.toRat, Except.instMonad, Except.bind, Except.pure, throwThe] <;>
    split_ifs <;>
    simp_all [strStrip_empty] <;>
    try (intros; casesm* _ ∨ _ <;> first | simp_all | linarith)

set_option maxHeartbeats 2000000 in
/-- `Place.validate` succeeds exactly on the flat rule set: title
present, non-blank and at most 100 characters, price a number greater
than 0, latitude a number in [-90, 90], longitude a number in
[-180, 180], owner present. -/
theorem Place_validate_ok_iff (p : Place) :
    (p.validate = .ok ()) ↔
      (specValidName 100 p.title && specPosNum p.price
        && specNumIn (-90) 90 p.latitude && specNumIn (-180) 180 p.longitude
        && p.owner.isSome) = true := by
  obtain ⟨pid, cat, uat, t, de, pr, la, lo, ow, am, rv⟩ := p
  rcases t with _ | s1 | i1 | q1 | b1 | l1 <;>
    simp [Place.validate, PVal.truthy, pyStrip, pyLen, specValidName, specPosNum,
      specNumIn, Except.instMonad, Except.bind, Except.pure, throwThe] <;>
    split_ifs <;>
    simp_all [strStrip_empty, PVal.isNum, PVal.toRat, Option.isSome_iff_ne_none] <;>
    try (intros; casesm* _ ∨ _ <;> first | simp_all | linarith)

/-- `User.__init__` succeeds exactly when `validate` accepts the
assigned record. -/
theorem User_new_isSome_iff (id : String) (now : Int) (fn ln em ia : PVal) :
    ((User.new id now fn ln em ia).toOption.isSome = true) ↔
      (User.validate { id := id, created_at := now, updated_at := .int now
                       first_name := fn, last_name := ln, email := em, is_admin := ia
                       place_list := .list [], reviews := .list [] } = .ok ()) := by
  unfold User.new
  simp only []
  cases hv : User.validate
      { id := id, created_at := now, updated_at := .int now, first_name := fn,
        last_name := ln, email := em, is_admin := ia, place_list := .list [],
        reviews := .list [] } with
  | error e => simp [hv, Except.toOption]
  | ok u => cases u; simp [hv, Except.toOption]

/-- `Amenity.__init__` succeeds exactly when `validate` accepts the
assigned record. -/
theorem Amenity_new_isSome_iff (id : String) (now : Int) (nm : PVal) :
    ((Amenity.new id now nm).toOption.isSome = true) ↔
      (Amenity.validate { id := id, created_at := now, updated_at := .int now
                          name := nm } = .ok ()) := by
  unfold Amenity.new
  simp only []
  cases hv : Amenity.validate
      { id := id, created_at := now, updated_at := .int now, name := nm } with
  | error e => simp [hv, Except.toOption]
  | ok u => cases u; simp [hv, Except.toOption]

/-- `Review.__init__` succeeds exactly when `validate` accepts the
assigned record. -/
theorem Review_new_isSome_iff (id : String) (now : Int) (t rt pidV uidV : PVal) :
    ((Review.new id now t rt pidV uidV).toOption.isSome = true) ↔
      (Review.validate { id := id, created_at := now, updated_at := .int now
                         text := t, rating := rt, place_id := pidV
                         user_id := uidV } = .ok ()) := by
  unfold Review.new
  simp only []
  cases hv : Review.validate
      { id := id, created_at := now, updated_at := .int now, text := t,
        rating := rt, place_id := pidV, user_id := uidV } with
  | error e => simp [hv, Except.toOption]
  | ok u => cases u; simp [hv, Except.toOption]

/-- `Place.__init__` succeeds exactly when `validate` accepts the
assigned record. -/
theorem Place_new_isSome_iff (id : String) (now : Int) (t de pr la lo : PVal)
    (ow : Option User) (am : List Amenity) (rv : List Review) :
    ((Place.new id now t de pr la lo ow am rv).toOption.isSome = true) ↔
      (Place.validate { id := id, created_at := now, updated_at := .int now
                        title := t, description := de, price := pr, latitude := la
                        longitude := lo, owner := ow, amenities := am
                        reviews := rv } = .ok ()) := by
  unfold Place.new
  simp only []
  cases hv : Place.validate
      { id := id, created_at := now, updated_at := .int now, title := t,
        description := de, price := pr, latitude := la, longitude := lo,
        owner := ow, amenities := am, reviews := rv } with
  | error e => simp [hv, Except.toOption]
  | ok u => cases u; simp [hv, Except.toOption]

/-- C6 (corrected), counterexample to the claim as stated: a user whose
first name is 51 characters long satisfies every rule the claim lists
(nothing is missing or empty, and the title/price/coordinate/rating
rules do not apply), yet construction fails with a validation error —
the 50-character name cap is not in the claim's enumeration. -/
theorem construction_rules_incomplete_cex :
    (specPresentText (.str longName51) && specPresentText (.str "Lee")
      && specPresentText (.str "a@b.c")) = true ∧
    (User.new "x" 0 (.str longName51) (.str "Lee") (.str "a@b.c") (.bool false)).toOption
      = Option.none := by
  decide

/-- C6 (amended): construction fails with a validation error exactly
when the entity's full rule set is violated; beyond the claim's
enumeration, that rule set also caps first/last/amenity names at 50
characters, requires the title non-empty, requires the email to
contain `@` with a `.` after it, requires the place owner and the
review's place and user ids to be present, and requires
price/latitude/longitude numeric and rating an `int`. -/
theorem construction_iff_rules :
    (∀ (id : String) (now : Int) (fn ln em ia : PVal),
      (User.new id now fn ln em ia).toOption.isSome
        = (specValidName 50 fn && specValidName 50 ln && specValidEmail em)) ∧
    (∀ (id : String) (now : Int) (nm : PVal),
      (Amenity.new id now nm).toOption.isSome = specValidName 50 nm) ∧
    (∀ (id : String) (now : Int) (t rt pidV uidV : PVal),
      (Review.new id now t rt pidV uidV).toOption.isSome
        = (specPresentText t && specValidRating rt && pidV.truthy && uidV.truthy)) ∧
    (∀ (id : String) (now : Int) (t de pr la lo : PVal) (ow : Option User)
        (am : List Amenity) (rv : List Review),
      (Place.new id now t de pr la lo ow am rv).toOption.isSome
        = (specValidName 100 t && specPosNum pr && specNumIn (-90) 90 la
            && specNumIn (-180) 180 lo && ow.isSome)) := by
  refine ⟨?_, ?_, ?_, ?_⟩
  · intro id now fn ln em ia
    rw [Bool.eq_iff_iff, User_new_isSome_iff, User_validate_ok_iff]
  · intro id now nm
    rw [Bool.eq_iff_iff, Amenity_new_isSome_iff, Amenity_validate_ok_iff]
  · intro id now t rt pidV uidV
    rw [Bool.eq_iff_iff, Review_new_isSome_iff, Review_validate_ok_iff]
  · intro id now t de pr la lo ow am rv
    rw [Bool.eq_iff_iff, Place_new_isSome_iff, Place_validate_ok_iff]

end HBnB
